import Mathlib

/-!
Verification development for the Mind Gym bicameral reasoning pipeline
(`mind_gym_mvp.py`).

The pipeline is embedded shallowly:

* `SomaticState` mirrors the Python dataclass `SomaticState` with rational
  fields (the Python floats are modelled as exact rationals, the standard
  choice for specification-level reasoning about this kind of clamped
  bounded arithmetic).
* Python string primitives used by the source (`in`, `.lower()`, `.split()`,
  `.replace()`, `.strip()`) are modelled on `List Char` / `String`, with the
  ASCII behaviour of `.lower()` (all markers in the source are ASCII).
* The text-generation backend is an opaque oracle `GenOracle` mapping the
  run-global call index to either a generated string or a `GenError`
  (`GenerationError` in the source); the orchestrator `MindGym.think` is
  embedded as a function from the query and the oracle to a `RunResult`
  holding the ordered operation trace (generation calls, governor updates,
  emitted events) plus bookkeeping values that the Python code computes
  (burst size, dialogue round count, ...).  Wall-clock time and the
  `asyncio.sleep` pacing delays are not modelled.
-/

/-- Python `needle in hay` (substring containment) on character lists. -/
def listContains (needle : List Char) : List Char → Bool
  | [] => needle.isEmpty
  | c :: rest => List.isPrefixOf needle (c :: rest) || listContains needle rest

/-- Python `needle in hay` on strings. -/
def pyIn (needle hay : String) : Bool :=
  listContains needle.data hay.data

/-- Python `str.lower()` (ASCII case folding; every marker in the source is ASCII). -/
def pyLower (s : String) : String :=
  ⟨s.data.map Char.toLower⟩

/-- The ASCII whitespace characters recognised by Python `str.strip()`. -/
def pyIsSpace (c : Char) : Bool :=
  c == ' ' || c == '\t' || c == '\n' || c == '\r' || c == '\x0b' || c == '\x0c'

/-- Python `str.strip()` on character lists. -/
def stripList (l : List Char) : List Char :=
  ((l.dropWhile pyIsSpace).reverse.dropWhile pyIsSpace).reverse

/-- Python `str.strip()`. -/
def pyStrip (s : String) : String :=
  ⟨stripList s.data⟩

/-- Helper for `pySplit`: scan left to right, emitting the accumulated chunk at each
leftmost non-overlapping occurrence of the separator.  The `fuel` argument (always
instantiated with the length of the scanned list, which each step shortens) keeps
the recursion structural so that the definition evaluates by kernel reduction. -/
def pySplitAux (sep : List Char) : Nat → List Char → List Char → List (List Char)
  | _, [], acc => [acc.reverse]
  | 0, l, acc => [acc.reverse ++ l]
  | fuel + 1, c :: rest, acc =>
    if List.isPrefixOf sep (c :: rest) then
      acc.reverse :: pySplitAux sep fuel (List.drop (sep.length - 1) rest) []
    else
      pySplitAux sep fuel rest (c :: acc)

/-- Python `text.split(sep)` for a non-empty separator. -/
def pySplit (sep : String) (s : String) : List String :=
  (pySplitAux sep.data s.data.length s.data []).map fun l => ⟨l⟩

/-- Helper for `pyReplace`: replace leftmost non-overlapping occurrences, never
rescanning replacement text (Python `str.replace` semantics).  The `fuel`
argument keeps the recursion structural, as in `pySplitAux`. -/
def pyReplaceAux (old new : List Char) : Nat → List Char → List Char
  | _, [] => []
  | 0, l => l
  | fuel + 1, c :: rest =>
    if List.isPrefixOf old (c :: rest) then
      new ++ pyReplaceAux old new fuel (List.drop (old.length - 1) rest)
    else
      c :: pyReplaceAux old new fuel rest

/-- Python `text.replace(old, new)`. -/
def pyReplace (old new : String) (s : String) : String :=
  ⟨pyReplaceAux old.data new.data s.data.length s.data⟩

/-- The emotional governor: Python dataclass `SomaticState`, with its default
field values (`arousal=0.5, valence=0.0, coherence=0.5, tension=0.0`). -/
structure SomaticState where
  arousal : ℚ := 0.5
  valence : ℚ := 0.0
  coherence : ℚ := 0.5
  tension : ℚ := 0.0
deriving DecidableEq, Repr

/-- `SomaticState.stress_level`: `(arousal * (1 - valence) / 2) * (1 - coherence)`. -/
def SomaticState.stress_level (s : SomaticState) : ℚ :=
  (s.arousal * (1 - s.valence) / 2) * (1 - s.coherence)

/-- The source's first heuristic condition:
`"confused" in thought.lower() or "uncertain" in thought.lower()`. -/
def hasConfusion (thought : String) : Bool :=
  pyIn "confused" (pyLower thought) || pyIn "uncertain" (pyLower thought)

/-- The source's second heuristic condition:
`"clear" in thought.lower() or "understand" in thought.lower()`. -/
def hasClarity (thought : String) : Bool :=
  pyIn "clear" (pyLower thought) || pyIn "understand" (pyLower thought)

/-- The source's third heuristic condition: `"!" in thought`. -/
def hasBang (thought : String) : Bool :=
  pyIn "!" thought

/-- `SomaticState.update_from_thought`, line for line from the source:
confusion markers multiply `coherence` by 0.9 and add 0.1 to `arousal`
(the source has no clamp on this addition); clarity markers multiply
`coherence` by 1.1 clamped to 1; an exclamation mark adds 0.05 to `arousal`
clamped to 1; `tension` unconditionally gains 0.02 clamped to 1. -/
def SomaticState.update_from_thought (s : SomaticState) (thought : String) : SomaticState :=
  let s1 :=
    if hasConfusion thought then
      { s with coherence := s.coherence * 0.9, arousal := s.arousal + 0.1 }
    else s
  let s2 :=
    if hasClarity thought then
      { s1 with coherence := min 1 (s1.coherence * 1.1) }
    else s1
  let s3 :=
    if hasBang thought then
      { s2 with arousal := min 1 (s2.arousal + 0.05) }
    else s2
  { s3 with tension := min 1 (s3.tension + 0.02) }

/-- `SomaticState.needs_rest`: `stress_level() > 0.8 or tension > 0.9`. -/
def SomaticState.needs_rest (s : SomaticState) : Bool :=
  decide (s.stress_level > 0.8) || decide (s.tension > 0.9)

/-- `update_from_thought` never touches `valence`. -/
theorem update_valence (s : SomaticState) (t : String) :
    (s.update_from_thought t).valence = s.valence := by
  unfold SomaticState.update_from_thought
  by_cases h1 : hasConfusion t = true <;> by_cases h2 : hasClarity t = true <;>
    by_cases h3 : hasBang t = true <;> simp [h1, h2, h3]

/-- `update_from_thought` sets `tension` to `min 1 (tension + 0.02)` whatever the text. -/
theorem update_tension (s : SomaticState) (t : String) :
    (s.update_from_thought t).tension = min 1 (s.tension + 0.02) := by
  unfold SomaticState.update_from_thought
  by_cases h1 : hasConfusion t = true <;> by_cases h2 : hasClarity t = true <;>
    by_cases h3 : hasBang t = true <;> simp [h1, h2, h3]

/-- The `coherence` field after `update_from_thought`, as a function of the two
relevant heuristic conditions. -/
theorem update_coherence (s : SomaticState) (t : String) :
    (s.update_from_thought t).coherence =
      (if hasClarity t then
        min 1 ((if hasConfusion t then s.coherence * 0.9 else s.coherence) * 1.1)
      else (if hasConfusion t then s.coherence * 0.9 else s.coherence)) := by
  unfold SomaticState.update_from_thought
  by_cases h1 : hasConfusion t = true <;> by_cases h2 : hasClarity t = true <;>
    by_cases h3 : hasBang t = true <;> simp [h1, h2, h3]

/-- The `arousal` field after `update_from_thought`, as a function of the two
relevant heuristic conditions; note the unclamped `+ 0.1` of the confusion branch. -/
theorem update_arousal (s : SomaticState) (t : String) :
    (s.update_from_thought t).arousal =
      (if hasBang t then
        min 1 ((if hasConfusion t then s.arousal + 0.1 else s.arousal) + 0.05)
      else (if hasConfusion t then s.arousal + 0.1 else s.arousal)) := by
  unfold SomaticState.update_from_thought
  by_cases h1 : hasConfusion t = true <;> by_cases h2 : hasClarity t = true <;>
    by_cases h3 : hasBang t = true <;> simp [h1, h2, h3]

example : pyIn "confused" (pyLower "I am CONFUSED!") = true := by decide
example : pyIn "clear" (pyLower "unCLEARly") = true := by decide
example : pyIn "confused" (pyLower "fine") = false := by decide
example : hasConfusion "confused" = true := by decide
example : hasConfusion "A" = false := by decide
example : hasClarity "A" = false := by decide
example : hasBang "A" = false := by decide
example : (({} : SomaticState)).stress_level = 1/8 := by
  norm_num [SomaticState.stress_level]
example : (SomaticState.update_from_thought {} "confused").coherence = 45/100 := by
  rw [update_coherence]
  norm_num [show hasConfusion "confused" = true from by decide,
    show hasClarity "confused" = false from by decide]
example : (SomaticState.update_from_thought {} "confused").arousal = 6/10 := by
  rw [update_arousal]
  norm_num [show hasConfusion "confused" = true from by decide,
    show hasBang "confused" = false from by decide]
example : (SomaticState.update_from_thought {} "A").tension = 1/50 := by
  rw [update_tension]
  norm_num [min_def]
example : pyStrip " hi there  " = "hi there" := by decide
example : pySplit "ANALYTICAL:" "INTUITIVE: a ANALYTICAL: b" = ["INTUITIVE: a ", " b"] := by decide
example : pyReplace "INTUITIVE:" "" "xINTUITIVE:y" = "xy" := by decide

/-- `GenerationError`: the opaque text-generation backend failed. -/
inductive GenError where
  | backendFailure
deriving DecidableEq, Repr

/-- The opaque generation backend: maps the run-global index of a generation
call to the generated text, or fails.  Prompt contents and sampling options are
passed to the backend but never inspected by the core logic, so the oracle is
indexed by call position only. -/
def GenOracle : Type := Nat → Except GenError String

/-- A progress event yielded by `MindGym.think` (the dictionaries of the source). -/
inductive Event where
  | starting (phase : String)
  | artifact (phase : String) (speaker : Option String) (thought : String)
      (somatic : List (String × ℚ))
  | complete (synthesis : String) (stress_final : ℚ) (coherence_final : ℚ)
      (needsRest : Bool)
deriving DecidableEq, Repr

/-- One step of a run, in temporal order: a generation call (recording the
run-global call index, the phase issuing it, the governor state current at the
moment of the call, the sampling temperature, and the returned text), a
governor update (recording the phase whose artifact is consumed, the artifact
text, and the state after the update), or a yielded event. -/
inductive Op where
  | genCall (idx : Nat) (phase : String) (somaticAtCall : SomaticState)
      (temperature : ℚ) (result : String)
  | update (phase : String) (text : String) (stateAfter : SomaticState)
  | emit (e : Event)
deriving DecidableEq, Repr

/-- The generation loop of the intuitive burst (`for i in range(burst_size)`):
one backend call per fragment, all against the same governor state, no state
update in between.  Returns the fragments, the trace of calls, the next free
call index, and the first error if a call failed (a failure propagates and
aborts the phase). -/
def genLoop (phase : String) (somatic : SomaticState) (temperature : ℚ)
    (gen : GenOracle) : Nat → Nat → List String × List Op × Nat × Option GenError
  | k, 0 => ([], [], k, none)
  | k, n + 1 =>
    match gen k with
    | .error e => ([], [], k, some e)
    | .ok t =>
      let r := genLoop phase somatic temperature gen (k + 1) n
      (t :: r.1, Op.genCall k phase somatic temperature t :: r.2.1, r.2.2.1, r.2.2.2)

/-- `IntuitiveMind.think`: burst size is `3 if somatic.stress_level() < 0.5 else 2`,
computed once at entry; each fragment is one temperature-0.9 backend call.
Returns the burst size alongside the fragments and call trace. -/
def IntuitiveMind.think (query : String) (somatic : SomaticState) (gen : GenOracle)
    (k : Nat) : Nat × List String × List Op × Nat × Option GenError :=
  let burst_size := if somatic.stress_level < 0.5 then 3 else 2
  let r := genLoop "intuitive" somatic 0.9 gen k burst_size
  (burst_size, r.1, r.2.1, r.2.2.1, r.2.2.2)

/-- `AnalyticalMind.think`: exactly one backend call, temperature
`0.3 if somatic.stress_level() > 0.7 else 0.5`. -/
def AnalyticalMind.think (query : String) (intuitive_thoughts : List String)
    (somatic : SomaticState) (gen : GenOracle) (k : Nat) :
    String × List Op × Nat × Option GenError :=
  let temperature : ℚ := if somatic.stress_level > 0.7 then 0.3 else 0.5
  match gen k with
  | .error e => ("", [], k, some e)
  | .ok t => (t, [Op.genCall k "analytical" somatic temperature t], k + 1, none)

/-- The dialogue-parsing step of `DialogueNode.converse`: if the generated text
contains both speaker tags, split at `"ANALYTICAL:"`, strip the `"INTUITIVE:"`
label from the first part and whitespace from both, and emit two tagged turns;
otherwise emit one turn under the untagged speaker marker `"dialogue"`. -/
def parseDialogueText (text : String) : List (String × String) :=
  if pyIn "INTUITIVE:" text && pyIn "ANALYTICAL:" text then
    let parts := pySplit "ANALYTICAL:" text
    let intuitive_part := pyStrip (pyReplace "INTUITIVE:" "" (parts.headD ""))
    let analytical_part := if parts.length > 1 then pyStrip ((parts.get? 1).getD "") else ""
    [("intuitive", intuitive_part), ("analytical", analytical_part)]
  else
    [("dialogue", text)]

/-- The round loop of `DialogueNode.converse`: one temperature-0.6 backend call
per round, each round's text parsed by `parseDialogueText` and appended to the
dialogue.  `stamp` is a trace annotation only: the governor state current
during phase 3 (the source's `DialogueNode` receives no somatic state). -/
def converseLoop (gen : GenOracle) (stamp : SomaticState) :
    Nat → Nat → List (String × String) × List Op × Nat × Option GenError
  | k, 0 => ([], [], k, none)
  | k, r + 1 =>
    match gen k with
    | .error e => ([], [], k, some e)
    | .ok text =>
      let turns := parseDialogueText text
      let rest := converseLoop gen stamp (k + 1) r
      (turns ++ rest.1, Op.genCall k "dialogue" stamp 0.6 text :: rest.2.1,
        rest.2.2.1, rest.2.2.2)

/-- `DialogueNode.converse`: the orchestrator supplies `rounds`. -/
def DialogueNode.converse (intuitive_thoughts : List String)
    (analytical_thought : String) (query : String) (rounds : Nat)
    (gen : GenOracle) (k : Nat) (stamp : SomaticState) :
    List (String × String) × List Op × Nat × Option GenError :=
  converseLoop gen stamp k rounds

/-- `synthesize`: exactly one temperature-0.4 backend call; its prompt embeds
the current numeric state snapshot (stress, coherence, tension). -/
def synthesize (query : String) (intuitive : List String) (analytical : String)
    (dialogue : List (String × String)) (somatic : SomaticState) (gen : GenOracle)
    (k : Nat) : String × List Op × Nat × Option GenError :=
  match gen k with
  | .error e => ("", [], k, some e)
  | .ok t => (t, [Op.genCall k "synthesis" somatic 0.4 t], k + 1, none)

/-- Phase-1 consumption loop of `MindGym.think`: for each already-generated
fragment, update the governor, then yield the fragment's event with the
post-update stress/coherence snapshot. -/
def intuitiveLoop (s : SomaticState) : List String → SomaticState × List Op
  | [] => (s, [])
  | t :: ts =>
    let s' := s.update_from_thought t
    let r := intuitiveLoop s' ts
    (r.1, Op.update "intuitive" t s' ::
      Op.emit (Event.artifact "intuitive" none t
        [("stress", s'.stress_level), ("coherence", s'.coherence)]) :: r.2)

/-- Phase-3 consumption loop of `MindGym.think`: for each already-generated
dialogue turn, update the governor, then yield the turn's event with the
post-update coherence snapshot. -/
def dialogueLoop (s : SomaticState) : List (String × String) → SomaticState × List Op
  | [] => (s, [])
  | (speaker, content) :: rest =>
    let s' := s.update_from_thought content
    let r := dialogueLoop s' rest
    (r.1, Op.update "dialogue" content s' ::
      Op.emit (Event.artifact "dialogue" (some speaker) content
        [("coherence", s'.coherence)]) :: r.2)

/-- The observable outcome of one `MindGym.think` run: the ordered operation
trace, the propagated generation error if the run aborted, and the
intermediate values the source computes (burst size, fragments, analytical
text, dialogue round count, dialogue turns, synthesis).  Elapsed wall-clock
time is not modelled. -/
structure RunResult where
  trace : List Op
  err : Option GenError
  burst_size : Nat
  intuitive_thoughts : List String
  analytical_thought : Option String
  dialogue_rounds : Option Nat
  dialogue : List (String × String)
  synthesis : Option String
deriving Repr

/-- `MindGym.think`, the four-phase orchestrator: reset the governor, run the
intuitive burst, consume the fragments, run the analytical reflection, consume
it, choose the dialogue round count from the current stress level, run and
consume the dialogue, synthesize, and yield the terminal `complete` event.  A
`GenError` anywhere aborts the run (the source has no handler: the exception
escapes the async generator), leaving the trace emitted so far. -/
def MindGym.think (query : String) (gen : GenOracle) : RunResult :=
  let s0 : SomaticState := {}
  let opsA : List Op := [Op.emit (Event.starting "intuitive")]
  match IntuitiveMind.think query s0 gen 0 with
  | (burst, _, gops1, _, some e) =>
    { trace := opsA ++ gops1, err := some e, burst_size := burst,
      intuitive_thoughts := [], analytical_thought := none,
      dialogue_rounds := none, dialogue := [], synthesis := none }
  | (burst, intuitive_thoughts, gops1, k1, none) =>
    let r1 := intuitiveLoop s0 intuitive_thoughts
    let s1 := r1.1
    let opsB := opsA ++ gops1 ++ r1.2 ++ [Op.emit (Event.starting "analytical")]
    match AnalyticalMind.think query intuitive_thoughts s1 gen k1 with
    | (_, gops2, _, some e) =>
      { trace := opsB ++ gops2, err := some e, burst_size := burst,
        intuitive_thoughts := intuitive_thoughts, analytical_thought := none,
        dialogue_rounds := none, dialogue := [], synthesis := none }
    | (analytical_thought, gops2, k2, none) =>
      let s2 := s1.update_from_thought analytical_thought
      let opsC := opsB ++ gops2 ++
        [Op.update "analytical" analytical_thought s2,
         Op.emit (Event.artifact "analytical" none analytical_thought
           [("stress", s2.stress_level), ("tension", s2.tension)]),
         Op.emit (Event.starting "dialogue")]
      let dialogue_rounds := if s2.stress_level > 0.7 then 1 else 2
      match DialogueNode.converse intuitive_thoughts analytical_thought query
          dialogue_rounds gen k2 s2 with
      | (_, gops3, _, some e) =>
        { trace := opsC ++ gops3, err := some e, burst_size := burst,
          intuitive_thoughts := intuitive_thoughts,
          analytical_thought := some analytical_thought,
          dialogue_rounds := some dialogue_rounds, dialogue := [], synthesis := none }
      | (dialogue, gops3, k3, none) =>
        let r3 := dialogueLoop s2 dialogue
        let s3 := r3.1
        let opsD := opsC ++ gops3 ++ r3.2 ++ [Op.emit (Event.starting "synthesis")]
        match synthesize query intuitive_thoughts analytical_thought dialogue s3 gen k3 with
        | (_, gops4, _, some e) =>
          { trace := opsD ++ gops4, err := some e, burst_size := burst,
            intuitive_thoughts := intuitive_thoughts,
            analytical_thought := some analytical_thought,
            dialogue_rounds := some dialogue_rounds, dialogue := dialogue,
            synthesis := none }
        | (synthesis, gops4, _, none) =>
          { trace := opsD ++ gops4 ++
              [Op.emit (Event.complete synthesis s3.stress_level s3.coherence
                s3.needs_rest)],
            err := none, burst_size := burst,
            intuitive_thoughts := intuitive_thoughts,
            analytical_thought := some analytical_thought,
            dialogue_rounds := some dialogue_rounds, dialogue := dialogue,
            synthesis := some synthesis }

/-- A somatic snapshot attached to an emitted event agrees with a state when
every named entry carries that state's value of the named quantity. -/
def snapshotAgrees (som : List (String × ℚ)) (s : SomaticState) : Bool :=
  som.all fun kv =>
    if kv.1 == "stress" then decide (kv.2 = s.stress_level)
    else if kv.1 == "coherence" then decide (kv.2 = s.coherence)
    else if kv.1 == "tension" then decide (kv.2 = s.tension)
    else false

/-- Every artifact event in the trace is immediately preceded by the governor
update for the same artifact text, and its somatic snapshot reflects the
post-update state. -/
def pairedOk : List Op → Bool
  | [] => true
  | Op.update ph t s :: rest =>
    match rest with
    | Op.emit (Event.artifact ph2 _ t2 som) :: rest2 =>
      (ph == ph2) && (t == t2) && snapshotAgrees som s && pairedOk rest2
    | _ => false
  | Op.emit (Event.artifact _ _ _ _) :: _ => false
  | _ :: rest => pairedOk rest

/-- Walking the trace with the current governor state: every generation call is
issued against exactly the current state (no stale snapshot), and every update
op records exactly `update_from_thought` of the current state at the artifact's
text. -/
def stateDiscipline (s : SomaticState) : List Op → Bool
  | [] => true
  | Op.genCall _ _ stamp _ _ :: rest => decide (stamp = s) && stateDiscipline s rest
  | Op.update _ t s' :: rest =>
    decide (s' = s.update_from_thought t) && stateDiscipline s' rest
  | Op.emit _ :: rest => stateDiscipline s rest

/-- Phase order of the pipeline. -/
def phaseRank (ph : String) : Nat :=
  if ph == "intuitive" then 0
  else if ph == "analytical" then 1
  else if ph == "dialogue" then 2
  else 3

/-- Cross-phase ordering: no governor update for a phase-`p` artifact occurs
after a generation call of a strictly later phase (every phase's updates are
complete before the next phase generates). -/
def crossPhaseOk : Nat → List Op → Bool
  | _, [] => true
  | maxG, Op.genCall _ ph _ _ _ :: rest => crossPhaseOk (max maxG (phaseRank ph)) rest
  | maxG, Op.update ph _ _ :: rest => decide (maxG ≤ phaseRank ph) && crossPhaseOk maxG rest
  | maxG, Op.emit _ :: rest => crossPhaseOk maxG rest

/-- The strict happens-before demanded by the claim: between any two
consecutive generation calls of phases 1–3, the governor update for the
earlier call's artifact must already have happened.  `pending` holds the text
of the last phase-1–3 artifact generated but not yet consumed by an update. -/
def hbWalk : Option String → List Op → Bool
  | _, [] => true
  | pending, Op.genCall _ ph _ _ t :: rest =>
    if phaseRank ph ≤ 2 then
      match pending with
      | some _ => false
      | none => hbWalk (some t) rest
    else hbWalk pending rest
  | pending, Op.update _ t _ :: rest =>
    match pending with
    | some t2 => if t == t2 then hbWalk none rest else hbWalk pending rest
    | none => hbWalk pending rest
  | pending, Op.emit _ :: rest => hbWalk pending rest

/-- The per-state valence annotation of every trace op is zero. -/
def allValenceZero (tr : List Op) : Bool :=
  tr.all fun op =>
    match op with
    | Op.update _ _ s => decide (s.valence = 0)
    | Op.genCall _ _ st _ _ => decide (st.valence = 0)
    | Op.emit _ => true

/-- Whether the trace yields a terminal `complete` event. -/
def hasCompleteEvent (tr : List Op) : Bool :=
  tr.any fun op =>
    match op with
    | Op.emit (Event.complete _ _ _ _) => true
    | _ => false

/-- A trace segment consisting only of generation calls of one phase, all
stamped with one state. -/
def GenSeg (ph : String) (s : SomaticState) (ops : List Op) : Prop :=
  ∀ op ∈ ops, ∃ i tp t, op = Op.genCall i ph s tp t

theorem genLoop_genSeg (phase : String) (s : SomaticState) (tp : ℚ) (gen : GenOracle) :
    ∀ n k, GenSeg phase s (genLoop phase s tp gen k n).2.1 := by
  intro n
  induction n with
  | zero => intro k op hop; simp [genLoop] at hop
  | succ m ih =>
    intro k op hop
    simp only [genLoop] at hop
    rcases hg : gen k with e | t <;> rw [hg] at hop
    · simp at hop
    · simp only [List.mem_cons] at hop
      rcases hop with h | h
      · exact ⟨k, tp, t, h⟩
      · exact ih (k + 1) op h

theorem genLoop_len (phase : String) (s : SomaticState) (tp : ℚ) (gen : GenOracle) :
    ∀ n k, (genLoop phase s tp gen k n).2.2.2 = none →
      (genLoop phase s tp gen k n).1.length = n := by
  intro n
  induction n with
  | zero => intro k _; rfl
  | succ m ih =>
    intro k hnone
    simp only [genLoop] at hnone ⊢
    rcases hg : gen k with e | t <;> rw [hg] at hnone
    · simp at hnone
    · simpa using ih (k + 1) hnone

theorem converseLoop_genSeg (gen : GenOracle) (stamp : SomaticState) :
    ∀ r k, GenSeg "dialogue" stamp (converseLoop gen stamp k r).2.1 := by
  intro r
  induction r with
  | zero => intro k op hop; simp [converseLoop] at hop
  | succ m ih =>
    intro k op hop
    simp only [converseLoop] at hop
    rcases hg : gen k with e | t <;> rw [hg] at hop
    · simp at hop
    · simp only [List.mem_cons] at hop
      rcases hop with h | h
      · exact ⟨k, 0.6, t, h⟩
      · exact ih (k + 1) op h

theorem converseLoop_count (gen : GenOracle) (stamp : SomaticState) :
    ∀ r k, (converseLoop gen stamp k r).2.2.2 = none →
      (converseLoop gen stamp k r).2.1.length = r := by
  intro r
  induction r with
  | zero => intro k _; rfl
  | succ m ih =>
    intro k hnone
    simp only [converseLoop] at hnone ⊢
    rcases hg : gen k with e | t <;> rw [hg] at hnone
    · simp at hnone
    · simpa using ih (k + 1) hnone

theorem pairedOk_genSeg_append {ph : String} {s : SomaticState} :
    ∀ ops, GenSeg ph s ops → ∀ ys, pairedOk (ops ++ ys) = pairedOk ys := by
  intro ops
  induction ops with
  | nil => intro _ ys; rfl
  | cons op rest ih =>
    intro h ys
    obtain ⟨i, tp, t, rfl⟩ := h op (List.mem_cons_self _ _)
    have hrest : GenSeg ph s rest := fun o ho => h o (List.mem_cons_of_mem _ ho)
    simp only [List.cons_append, pairedOk]
    exact ih hrest ys

theorem stateDiscipline_genSeg_append {ph : String} {s : SomaticState} :
    ∀ ops, GenSeg ph s ops → ∀ ys,
      stateDiscipline s (ops ++ ys) = stateDiscipline s ys := by
  intro ops
  induction ops with
  | nil => intro _ ys; rfl
  | cons op rest ih =>
    intro h ys
    obtain ⟨i, tp, t, rfl⟩ := h op (List.mem_cons_self _ _)
    have hrest : GenSeg ph s rest := fun o ho => h o (List.mem_cons_of_mem _ ho)
    simp [stateDiscipline, ih hrest ys]

theorem crossPhaseOk_mono : ∀ l g1 g2, g1 ≤ g2 →
    crossPhaseOk g2 l = true → crossPhaseOk g1 l = true := by
  intro l
  induction l with
  | nil => intro g1 g2 _ _; rfl
  | cons op rest ih =>
    intro g1 g2 hle h
    cases op with
    | genCall i ph st tp t =>
      simp only [crossPhaseOk] at h ⊢
      exact ih _ _ (max_le_max hle le_rfl) h
    | update ph t s2 =>
      simp only [crossPhaseOk, Bool.and_eq_true, decide_eq_true_eq] at h ⊢
      exact ⟨le_trans hle h.1, ih _ _ hle h.2⟩
    | emit e =>
      simp only [crossPhaseOk] at h ⊢
      exact ih _ _ hle h

theorem crossPhaseOk_genSeg_append {ph : String} {s : SomaticState} :
    ∀ ops, GenSeg ph s ops → ∀ g ys,
      crossPhaseOk (max g (phaseRank ph)) ys = true →
      crossPhaseOk g (ops ++ ys) = true := by
  intro ops
  induction ops with
  | nil =>
    intro _ g ys h
    exact crossPhaseOk_mono _ _ _ (le_max_left _ _) h
  | cons op rest ih =>
    intro h g ys hy
    obtain ⟨i, tp, t, rfl⟩ := h op (List.mem_cons_self _ _)
    have hrest : GenSeg ph s rest := fun o ho => h o (List.mem_cons_of_mem _ ho)
    simp only [List.cons_append, crossPhaseOk]
    apply ih hrest (max g (phaseRank ph)) ys
    rwa [max_assoc, max_self]

theorem intuitiveLoop_state : ∀ ts s,
    (intuitiveLoop s ts).1 = ts.foldl SomaticState.update_from_thought s := by
  intro ts
  induction ts with
  | nil => intro s; rfl
  | cons t ts ih => intro s; simp [intuitiveLoop, ih]

theorem pairedOk_intuitiveLoop_append : ∀ ts s ys,
    pairedOk ((intuitiveLoop s ts).2 ++ ys) = pairedOk ys := by
  intro ts
  induction ts with
  | nil => intro s ys; rfl
  | cons t ts ih =>
    intro s ys
    simp [intuitiveLoop, pairedOk, snapshotAgrees, ih]

theorem stateDiscipline_intuitiveLoop_append : ∀ ts s ys,
    stateDiscipline s ((intuitiveLoop s ts).2 ++ ys) =
      stateDiscipline (intuitiveLoop s ts).1 ys := by
  intro ts
  induction ts with
  | nil => intro s ys; rfl
  | cons t ts ih =>
    intro s ys
    simp [intuitiveLoop, stateDiscipline, ih]

theorem crossPhaseOk_intuitiveLoop_append : ∀ ts s g ys, g ≤ phaseRank "intuitive" →
    crossPhaseOk g ys = true → crossPhaseOk g ((intuitiveLoop s ts).2 ++ ys) = true := by
  intro ts
  induction ts with
  | nil => intro s g ys _ h; exact h
  | cons t ts ih =>
    intro s g ys hg h
    simp only [intuitiveLoop, List.cons_append, crossPhaseOk, Bool.and_eq_true,
      decide_eq_true_eq]
    exact ⟨hg, ih _ g ys hg h⟩

theorem dialogueLoop_state : ∀ d s,
    (dialogueLoop s d).1 = (d.map Prod.snd).foldl SomaticState.update_from_thought s := by
  intro d
  induction d with
  | nil => intro s; rfl
  | cons p rest ih =>
    rcases p with ⟨sp, c⟩
    intro s; simp [dialogueLoop, ih]

theorem pairedOk_dialogueLoop_append : ∀ d s ys,
    pairedOk ((dialogueLoop s d).2 ++ ys) = pairedOk ys := by
  intro d
  induction d with
  | nil => intro s ys; rfl
  | cons p rest ih =>
    rcases p with ⟨sp, c⟩
    intro s ys
    simp [dialogueLoop, pairedOk, snapshotAgrees, ih]

theorem stateDiscipline_dialogueLoop_append : ∀ d s ys,
    stateDiscipline s ((dialogueLoop s d).2 ++ ys) =
      stateDiscipline (dialogueLoop s d).1 ys := by
  intro d
  induction d with
  | nil => intro s ys; rfl
  | cons p rest ih =>
    rcases p with ⟨sp, c⟩
    intro s ys
    simp [dialogueLoop, stateDiscipline, ih]

theorem crossPhaseOk_dialogueLoop_append : ∀ d s g ys, g ≤ phaseRank "dialogue" →
    crossPhaseOk g ys = true → crossPhaseOk g ((dialogueLoop s d).2 ++ ys) = true := by
  intro d
  induction d with
  | nil => intro s g ys _ h; exact h
  | cons p rest ih =>
    rcases p with ⟨sp, c⟩
    intro s g ys hg h
    simp only [dialogueLoop, List.cons_append, crossPhaseOk, Bool.and_eq_true,
      decide_eq_true_eq]
    exact ⟨hg, ih _ g ys hg h⟩

theorem hasComplete_genSeg {ph : String} {s : SomaticState} :
    ∀ ops, GenSeg ph s ops → hasCompleteEvent ops = false := by
  intro ops
  induction ops with
  | nil => intro _; rfl
  | cons op rest ih =>
    intro h
    obtain ⟨i, tp, t, rfl⟩ := h op (List.mem_cons_self _ _)
    have hrest : GenSeg ph s rest := fun o ho => h o (List.mem_cons_of_mem _ ho)
    simp [hasCompleteEvent] at ih ⊢
    exact ih hrest

theorem hasComplete_intuitiveLoop : ∀ ts s,
    hasCompleteEvent (intuitiveLoop s ts).2 = false := by
  intro ts
  induction ts with
  | nil => intro s; rfl
  | cons t ts ih =>
    intro s
    simp [intuitiveLoop, hasCompleteEvent] at ih ⊢
    exact ih _

theorem hasComplete_dialogueLoop : ∀ d s,
    hasCompleteEvent (dialogueLoop s d).2 = false := by
  intro d
  induction d with
  | nil => intro s; rfl
  | cons p rest ih =>
    rcases p with ⟨sp, c⟩
    intro s
    simp [dialogueLoop, hasCompleteEvent] at ih ⊢
    exact ih _

theorem stateDiscipline_allValenceZero : ∀ tr s, s.valence = 0 →
    stateDiscipline s tr = true → allValenceZero tr = true := by
  intro tr
  induction tr with
  | nil => intro s _ _; rfl
  | cons op rest ih =>
    intro s hv h
    cases op with
    | genCall i ph st tp t =>
      simp only [stateDiscipline, Bool.and_eq_true, decide_eq_true_eq] at h
      simp only [allValenceZero, List.all_cons, Bool.and_eq_true, decide_eq_true_eq]
      exact ⟨h.1 ▸ hv, ih s hv h.2⟩
    | update ph t s2 =>
      simp only [stateDiscipline, Bool.and_eq_true, decide_eq_true_eq] at h
      simp only [allValenceZero, List.all_cons, Bool.and_eq_true, decide_eq_true_eq]
      have hv2 : s2.valence = 0 := by rw [h.1, update_valence]; exact hv
      exact ⟨hv2, ih s2 hv2 h.2⟩
    | emit e =>
      simp only [stateDiscipline] at h
      simpa [allValenceZero] using ih s hv h

theorem pairedOk_nil : pairedOk [] = true := rfl

theorem pairedOk_cons_emit_starting (p : String) (l : List Op) :
    pairedOk (Op.emit (Event.starting p) :: l) = pairedOk l := rfl

theorem pairedOk_cons_emit_complete (a : String) (x y : ℚ) (b : Bool) (l : List Op) :
    pairedOk (Op.emit (Event.complete a x y b) :: l) = pairedOk l := rfl

theorem pairedOk_of_genSeg {ph : String} {s : SomaticState} (ops : List Op)
    (h : GenSeg ph s ops) : pairedOk ops = true := by
  have := pairedOk_genSeg_append ops h []
  simpa using this

theorem stateDiscipline_cons_emit (s : SomaticState) (e : Event) (l : List Op) :
    stateDiscipline s (Op.emit e :: l) = stateDiscipline s l := rfl

theorem crossPhaseOk_cons_emit (g : Nat) (e : Event) (l : List Op) :
    crossPhaseOk g (Op.emit e :: l) = crossPhaseOk g l := rfl

theorem phaseRank_intuitive : phaseRank "intuitive" = 0 := by decide
theorem phaseRank_analytical : phaseRank "analytical" = 1 := by decide
theorem phaseRank_dialogue : phaseRank "dialogue" = 2 := by decide
theorem phaseRank_synthesis : phaseRank "synthesis" = 3 := by decide

theorem IntuitiveMind_genSeg (q : String) (s : SomaticState) (gen : GenOracle) (k : Nat) :
    GenSeg "intuitive" s (IntuitiveMind.think q s gen k).2.2.1 := by
  unfold IntuitiveMind.think
  exact genLoop_genSeg "intuitive" s 0.9 gen _ k

theorem IntuitiveMind_len (q : String) (s : SomaticState) (gen : GenOracle) (k : Nat) :
    (IntuitiveMind.think q s gen k).2.2.2.2 = none →
      (IntuitiveMind.think q s gen k).2.1.length = (IntuitiveMind.think q s gen k).1 := by
  unfold IntuitiveMind.think
  exact genLoop_len "intuitive" s 0.9 gen _ k

theorem AnalyticalMind_genSeg (q : String) (ts : List String) (s : SomaticState)
    (gen : GenOracle) (k : Nat) :
    GenSeg "analytical" s (AnalyticalMind.think q ts s gen k).2.1 := by
  unfold AnalyticalMind.think
  rcases gen k with e | t
  · intro op hop; simp at hop
  · intro op hop
    simp only [List.mem_singleton] at hop
    exact ⟨k, _, t, hop⟩

theorem converse_genSeg (its : List String) (a q : String) (r : Nat) (gen : GenOracle)
    (k : Nat) (stamp : SomaticState) :
    GenSeg "dialogue" stamp (DialogueNode.converse its a q r gen k stamp).2.1 := by
  unfold DialogueNode.converse
  exact converseLoop_genSeg gen stamp r k

theorem synthesize_genSeg (q : String) (its : List String) (a : String)
    (d : List (String × String)) (s : SomaticState) (gen : GenOracle) (k : Nat) :
    GenSeg "synthesis" s (synthesize q its a d s gen k).2.1 := by
  unfold synthesize
  rcases gen k with e | t
  · intro op hop; simp at hop
  · intro op hop
    simp only [List.mem_singleton] at hop
    exact ⟨k, _, t, hop⟩

theorem pairedOk_analytical_triple (a : String) (s2 : SomaticState) (l : List Op) :
    pairedOk (Op.update "analytical" a s2 ::
      Op.emit (Event.artifact "analytical" none a
        [("stress", s2.stress_level), ("tension", s2.tension)]) ::
      Op.emit (Event.starting "dialogue") :: l) = pairedOk l := by
  simp [pairedOk, snapshotAgrees]

theorem think_pairedOk (query : String) (gen : GenOracle) :
    pairedOk (MindGym.think query gen).trace = true := by
  unfold MindGym.think
  dsimp only
  split
  next b ts gops1 k1 e heq =>
    have hseg1 := IntuitiveMind_genSeg query ({} : SomaticState) gen 0
    rw [heq] at hseg1
    dsimp only at hseg1 ⊢
    rw [List.singleton_append, pairedOk_cons_emit_starting]
    exact pairedOk_of_genSeg _ hseg1
  next b ts gops1 k1 heq =>
    have hseg1 := IntuitiveMind_genSeg query ({} : SomaticState) gen 0
    rw [heq] at hseg1
    dsimp only at hseg1
    split
    next a gops2 k2 e heq2 =>
      have hsegA := AnalyticalMind_genSeg query ts (intuitiveLoop {} ts).1 gen k1
      rw [heq2] at hsegA
      dsimp only at hsegA ⊢
      simp only [List.append_assoc, List.singleton_append, List.cons_append,
        List.nil_append]
      rw [pairedOk_cons_emit_starting, pairedOk_genSeg_append _ hseg1,
        pairedOk_intuitiveLoop_append, pairedOk_cons_emit_starting]
      exact pairedOk_of_genSeg _ hsegA
    next a gops2 k2 heq2 =>
      have hsegA := AnalyticalMind_genSeg query ts (intuitiveLoop {} ts).1 gen k1
      rw [heq2] at hsegA
      dsimp only at hsegA
      split
      next d gops3 k3 e heq3 =>
        have hsegD := converse_genSeg ts a query
          (if ((intuitiveLoop {} ts).1.update_from_thought a).stress_level > 0.7
            then 1 else 2) gen k2
          ((intuitiveLoop {} ts).1.update_from_thought a)
        rw [heq3] at hsegD
        dsimp only at hsegD ⊢
        simp only [List.append_assoc, List.singleton_append, List.cons_append,
          List.nil_append]
        rw [pairedOk_cons_emit_starting, pairedOk_genSeg_append _ hseg1,
          pairedOk_intuitiveLoop_append, pairedOk_cons_emit_starting,
          pairedOk_genSeg_append _ hsegA, pairedOk_analytical_triple]
        exact pairedOk_of_genSeg _ hsegD
      next d gops3 k3 heq3 =>
        have hsegD := converse_genSeg ts a query
          (if ((intuitiveLoop {} ts).1.update_from_thought a).stress_level > 0.7
            then 1 else 2) gen k2
          ((intuitiveLoop {} ts).1.update_from_thought a)
        rw [heq3] at hsegD
        dsimp only at hsegD
        split
        next syn gops4 k4 e heq4 =>
          have hsegS := synthesize_genSeg query ts a d
            ((dialogueLoop ((intuitiveLoop {} ts).1.update_from_thought a) d).1) gen k3
          rw [heq4] at hsegS
          dsimp only at hsegS ⊢
          simp only [List.append_assoc, List.singleton_append, List.cons_append,
            List.nil_append]
          rw [pairedOk_cons_emit_starting, pairedOk_genSeg_append _ hseg1,
            pairedOk_intuitiveLoop_append, pairedOk_cons_emit_starting,
            pairedOk_genSeg_append _ hsegA, pairedOk_analytical_triple,
            pairedOk_genSeg_append _ hsegD, pairedOk_dialogueLoop_append,
            pairedOk_cons_emit_starting]
          exact pairedOk_of_genSeg _ hsegS
        next syn gops4 k4 heq4 =>
          have hsegS := synthesize_genSeg query ts a d
            ((dialogueLoop ((intuitiveLoop {} ts).1.update_from_thought a) d).1) gen k3
          rw [heq4] at hsegS
          dsimp only at hsegS ⊢
          simp only [List.append_assoc, List.singleton_append, List.cons_append,
            List.nil_append]
          rw [pairedOk_cons_emit_starting, pairedOk_genSeg_append _ hseg1,
            pairedOk_intuitiveLoop_append, pairedOk_cons_emit_starting,
            pairedOk_genSeg_append _ hsegA, pairedOk_analytical_triple,
            pairedOk_genSeg_append _ hsegD, pairedOk_dialogueLoop_append,
            pairedOk_cons_emit_starting, pairedOk_genSeg_append _ hsegS,
            pairedOk_cons_emit_complete]
          exact pairedOk_nil

theorem stateDiscipline_cons_update_self (s : SomaticState) (ph t : String) (l : List Op) :
    stateDiscipline s (Op.update ph t (s.update_from_thought t) :: l) =
      stateDiscipline (s.update_from_thought t) l := by
  simp [stateDiscipline]

theorem stateDiscipline_of_genSeg {ph : String} {s : SomaticState} (ops : List Op)
    (h : GenSeg ph s ops) : stateDiscipline s ops = true := by
  have := stateDiscipline_genSeg_append ops h []
  simpa using this

theorem think_stateDiscipline (query : String) (gen : GenOracle) :
    stateDiscipline {} (MindGym.think query gen).trace = true := by
  unfold MindGym.think
  dsimp only
  split
  next b ts gops1 k1 e heq =>
    have hseg1 := IntuitiveMind_genSeg query ({} : SomaticState) gen 0
    rw [heq] at hseg1
    dsimp only at hseg1 ⊢
    rw [List.singleton_append, stateDiscipline_cons_emit]
    exact stateDiscipline_of_genSeg _ hseg1
  next b ts gops1 k1 heq =>
    have hseg1 := IntuitiveMind_genSeg query ({} : SomaticState) gen 0
    rw [heq] at hseg1
    dsimp only at hseg1
    split
    next a gops2 k2 e heq2 =>
      have hsegA := AnalyticalMind_genSeg query ts (intuitiveLoop {} ts).1 gen k1
      rw [heq2] at hsegA
      dsimp only at hsegA ⊢
      simp only [List.append_assoc, List.singleton_append, List.cons_append, List.nil_append]
      rw [stateDiscipline_cons_emit, stateDiscipline_genSeg_append _ hseg1,
        stateDiscipline_intuitiveLoop_append, stateDiscipline_cons_emit]
      exact stateDiscipline_of_genSeg _ hsegA
    next a gops2 k2 heq2 =>
      have hsegA := AnalyticalMind_genSeg query ts (intuitiveLoop {} ts).1 gen k1
      rw [heq2] at hsegA
      dsimp only at hsegA
      split
      next d gops3 k3 e heq3 =>
        have hsegD := converse_genSeg ts a query
          (if ((intuitiveLoop {} ts).1.update_from_thought a).stress_level > 0.7
            then 1 else 2) gen k2
          ((intuitiveLoop {} ts).1.update_from_thought a)
        rw [heq3] at hsegD
        dsimp only at hsegD ⊢
        simp only [List.append_assoc, List.singleton_append, List.cons_append, List.nil_append]
        rw [stateDiscipline_cons_emit, stateDiscipline_genSeg_append _ hseg1,
          stateDiscipline_intuitiveLoop_append, stateDiscipline_cons_emit,
          stateDiscipline_genSeg_append _ hsegA, stateDiscipline_cons_update_self,
          stateDiscipline_cons_emit, stateDiscipline_cons_emit]
        exact stateDiscipline_of_genSeg _ hsegD
      next d gops3 k3 heq3 =>
        have hsegD := converse_genSeg ts a query
          (if ((intuitiveLoop {} ts).1.update_from_thought a).stress_level > 0.7
            then 1 else 2) gen k2
          ((intuitiveLoop {} ts).1.update_from_thought a)
        rw [heq3] at hsegD
        dsimp only at hsegD
        split
        next syn gops4 k4 e heq4 =>
          have hsegS := synthesize_genSeg query ts a d
            ((dialogueLoop ((intuitiveLoop {} ts).1.update_from_thought a) d).1) gen k3
          rw [heq4] at hsegS
          dsimp only at hsegS ⊢
          simp only [List.append_assoc, List.singleton_append, List.cons_append,
            List.nil_append]
          rw [stateDiscipline_cons_emit, stateDiscipline_genSeg_append _ hseg1,
            stateDiscipline_intuitiveLoop_append, stateDiscipline_cons_emit,
            stateDiscipline_genSeg_append _ hsegA, stateDiscipline_cons_update_self,
            stateDiscipline_cons_emit, stateDiscipline_cons_emit,
            stateDiscipline_genSeg_append _ hsegD, stateDiscipline_dialogueLoop_append,
            stateDiscipline_cons_emit]
          exact stateDiscipline_of_genSeg _ hsegS
        next syn gops4 k4 heq4 =>
          have hsegS := synthesize_genSeg query ts a d
            ((dialogueLoop ((intuitiveLoop {} ts).1.update_from_thought a) d).1) gen k3
          rw [heq4] at hsegS
          dsimp only at hsegS ⊢
          simp only [List.append_assoc, List.singleton_append, List.cons_append,
            List.nil_append]
          rw [stateDiscipline_cons_emit, stateDiscipline_genSeg_append _ hseg1,
            stateDiscipline_intuitiveLoop_append, stateDiscipline_cons_emit,
            stateDiscipline_genSeg_append _ hsegA, stateDiscipline_cons_update_self,
            stateDiscipline_cons_emit, stateDiscipline_cons_emit,
            stateDiscipline_genSeg_append _ hsegD, stateDiscipline_dialogueLoop_append,
            stateDiscipline_cons_emit, stateDiscipline_genSeg_append _ hsegS,
            stateDiscipline_cons_emit]
          rfl

theorem crossPhaseOk_of_genSeg {ph : String} {s : SomaticState} (ops : List Op)
    (h : GenSeg ph s ops) (g : Nat) : crossPhaseOk g ops = true := by
  have := crossPhaseOk_genSeg_append ops h g [] rfl
  simpa using this

theorem crossPhaseOk_cons_update_analytical (t : String) (s : SomaticState) (l : List Op) :
    crossPhaseOk 1 (Op.update "analytical" t s :: l) = crossPhaseOk 1 l := by
  have h : (1 : Nat) ≤ phaseRank "analytical" := by decide
  simp [crossPhaseOk, h]

theorem think_crossPhaseOk (query : String) (gen : GenOracle) :
    crossPhaseOk 0 (MindGym.think query gen).trace = true := by
  unfold MindGym.think
  dsimp only
  split
  next b ts gops1 k1 e heq =>
    have hseg1 := IntuitiveMind_genSeg query ({} : SomaticState) gen 0
    rw [heq] at hseg1
    dsimp only at hseg1 ⊢
    rw [List.singleton_append, crossPhaseOk_cons_emit]
    exact crossPhaseOk_of_genSeg _ hseg1 0
  next b ts gops1 k1 heq =>
    have hseg1 := IntuitiveMind_genSeg query ({} : SomaticState) gen 0
    rw [heq] at hseg1
    dsimp only at hseg1
    split
    next a gops2 k2 e heq2 =>
      have hsegA := AnalyticalMind_genSeg query ts (intuitiveLoop {} ts).1 gen k1
      rw [heq2] at hsegA
      dsimp only at hsegA ⊢
      simp only [List.append_assoc, List.singleton_append, List.cons_append, List.nil_append]
      rw [crossPhaseOk_cons_emit]
      apply crossPhaseOk_genSeg_append _ hseg1 0
      rw [show max 0 (phaseRank "intuitive") = 0 from by decide]
      apply crossPhaseOk_intuitiveLoop_append _ _ _ _ (by decide)
      rw [crossPhaseOk_cons_emit]
      exact crossPhaseOk_of_genSeg _ hsegA 0
    next a gops2 k2 heq2 =>
      have hsegA := AnalyticalMind_genSeg query ts (intuitiveLoop {} ts).1 gen k1
      rw [heq2] at hsegA
      dsimp only at hsegA
      split
      next d gops3 k3 e heq3 =>
        have hsegD := converse_genSeg ts a query
          (if ((intuitiveLoop {} ts).1.update_from_thought a).stress_level > 0.7
            then 1 else 2) gen k2
          ((intuitiveLoop {} ts).1.update_from_thought a)
        rw [heq3] at hsegD
        dsimp only at hsegD ⊢
        simp only [List.append_assoc, List.singleton_append, List.cons_append, List.nil_append]
        rw [crossPhaseOk_cons_emit]
        apply crossPhaseOk_genSeg_append _ hseg1 0
        rw [show max 0 (phaseRank "intuitive") = 0 from by decide]
        apply crossPhaseOk_intuitiveLoop_append _ _ _ _ (by decide)
        rw [crossPhaseOk_cons_emit]
        apply crossPhaseOk_genSeg_append _ hsegA 0
        rw [show max 0 (phaseRank "analytical") = 1 from by decide]
        rw [crossPhaseOk_cons_update_analytical, crossPhaseOk_cons_emit,
          crossPhaseOk_cons_emit]
        exact crossPhaseOk_of_genSeg _ hsegD 1
      next d gops3 k3 heq3 =>
        have hsegD := converse_genSeg ts a query
          (if ((intuitiveLoop {} ts).1.update_from_thought a).stress_level > 0.7
            then 1 else 2) gen k2
          ((intuitiveLoop {} ts).1.update_from_thought a)
        rw [heq3] at hsegD
        dsimp only at hsegD
        split
        next syn gops4 k4 e heq4 =>
          have hsegS := synthesize_genSeg query ts a d
            ((dialogueLoop ((intuitiveLoop {} ts).1.update_from_thought a) d).1) gen k3
          rw [heq4] at hsegS
          dsimp only at hsegS ⊢
          simp only [List.append_assoc, List.singleton_append, List.cons_append,
            List.nil_append]
          rw [crossPhaseOk_cons_emit]
          apply crossPhaseOk_genSeg_append _ hseg1 0
          rw [show max 0 (phaseRank "intuitive") = 0 from by decide]
          apply crossPhaseOk_intuitiveLoop_append _ _ _ _ (by decide)
          rw [crossPhaseOk_cons_emit]
          apply crossPhaseOk_genSeg_append _ hsegA 0
          rw [show max 0 (phaseRank "analytical") = 1 from by decide]
          rw [crossPhaseOk_cons_update_analytical, crossPhaseOk_cons_emit,
            crossPhaseOk_cons_emit]
          apply crossPhaseOk_genSeg_append _ hsegD 1
          rw [show max 1 (phaseRank "dialogue") = 2 from by decide]
          apply crossPhaseOk_dialogueLoop_append _ _ _ _ (by decide)
          rw [crossPhaseOk_cons_emit]
          exact crossPhaseOk_of_genSeg _ hsegS 2
        next syn gops4 k4 heq4 =>
          have hsegS := synthesize_genSeg query ts a d
            ((dialogueLoop ((intuitiveLoop {} ts).1.update_from_thought a) d).1) gen k3
          rw [heq4] at hsegS
          dsimp only at hsegS ⊢
          simp only [List.append_assoc, List.singleton_append, List.cons_append,
            List.nil_append]
          rw [crossPhaseOk_cons_emit]
          apply crossPhaseOk_genSeg_append _ hseg1 0
          rw [show max 0 (phaseRank "intuitive") = 0 from by decide]
          apply crossPhaseOk_intuitiveLoop_append _ _ _ _ (by decide)
          rw [crossPhaseOk_cons_emit]
          apply crossPhaseOk_genSeg_append _ hsegA 0
          rw [show max 0 (phaseRank "analytical") = 1 from by decide]
          rw [crossPhaseOk_cons_update_analytical, crossPhaseOk_cons_emit,
            crossPhaseOk_cons_emit]
          apply crossPhaseOk_genSeg_append _ hsegD 1
          rw [show max 1 (phaseRank "dialogue") = 2 from by decide]
          apply crossPhaseOk_dialogueLoop_append _ _ _ _ (by decide)
          rw [crossPhaseOk_cons_emit]
          apply crossPhaseOk_genSeg_append _ hsegS 2
          rfl

theorem hasComplete_append (xs ys : List Op) :
    hasCompleteEvent (xs ++ ys) = (hasCompleteEvent xs || hasCompleteEvent ys) := by
  simp [hasCompleteEvent, List.any_append]

theorem hasComplete_cons_emit_starting (p : String) (l : List Op) :
    hasCompleteEvent (Op.emit (Event.starting p) :: l) = hasCompleteEvent l := by
  simp [hasCompleteEvent]

theorem hasComplete_singleton_starting (p : String) :
    hasCompleteEvent [Op.emit (Event.starting p)] = false := rfl

theorem hasComplete_analytical_triple (t : String) (s2 : SomaticState) :
    hasCompleteEvent [Op.update "analytical" t s2,
      Op.emit (Event.artifact "analytical" none t
        [("stress", s2.stress_level), ("tension", s2.tension)]),
      Op.emit (Event.starting "dialogue")] = false := rfl

theorem think_abort (query : String) (gen : GenOracle) :
    (MindGym.think query gen).err = none ∨
      (hasCompleteEvent (MindGym.think query gen).trace = false ∧
        (MindGym.think query gen).synthesis = none) := by
  unfold MindGym.think
  dsimp only
  split
  next b ts gops1 k1 e heq =>
    have hseg1 := IntuitiveMind_genSeg query ({} : SomaticState) gen 0
    rw [heq] at hseg1
    dsimp only at hseg1 ⊢
    refine Or.inr ⟨?_, rfl⟩
    rw [List.singleton_append, hasComplete_cons_emit_starting]
    exact hasComplete_genSeg _ hseg1
  next b ts gops1 k1 heq =>
    have hseg1 := IntuitiveMind_genSeg query ({} : SomaticState) gen 0
    rw [heq] at hseg1
    dsimp only at hseg1
    split
    next a gops2 k2 e heq2 =>
      have hsegA := AnalyticalMind_genSeg query ts (intuitiveLoop {} ts).1 gen k1
      rw [heq2] at hsegA
      dsimp only at hsegA ⊢
      refine Or.inr ⟨?_, rfl⟩
      simp only [hasComplete_append, hasComplete_singleton_starting,
        hasComplete_genSeg _ hseg1, hasComplete_genSeg _ hsegA,
        hasComplete_intuitiveLoop, Bool.or_false, Bool.false_or]
    next a gops2 k2 heq2 =>
      have hsegA := AnalyticalMind_genSeg query ts (intuitiveLoop {} ts).1 gen k1
      rw [heq2] at hsegA
      dsimp only at hsegA
      split
      next d gops3 k3 e heq3 =>
        have hsegD := converse_genSeg ts a query
          (if ((intuitiveLoop {} ts).1.update_from_thought a).stress_level > 0.7
            then 1 else 2) gen k2
          ((intuitiveLoop {} ts).1.update_from_thought a)
        rw [heq3] at hsegD
        dsimp only at hsegD ⊢
        refine Or.inr ⟨?_, rfl⟩
        simp only [hasComplete_append, hasComplete_singleton_starting,
          hasComplete_analytical_triple, hasComplete_genSeg _ hseg1,
          hasComplete_genSeg _ hsegA, hasComplete_genSeg _ hsegD,
          hasComplete_intuitiveLoop, Bool.or_false, Bool.false_or]
      next d gops3 k3 heq3 =>
        have hsegD := converse_genSeg ts a query
          (if ((intuitiveLoop {} ts).1.update_from_thought a).stress_level > 0.7
            then 1 else 2) gen k2
          ((intuitiveLoop {} ts).1.update_from_thought a)
        rw [heq3] at hsegD
        dsimp only at hsegD
        split
        next syn gops4 k4 e heq4 =>
          have hsegS := synthesize_genSeg query ts a d
            ((dialogueLoop ((intuitiveLoop {} ts).1.update_from_thought a) d).1) gen k3
          rw [heq4] at hsegS
          dsimp only at hsegS ⊢
          refine Or.inr ⟨?_, rfl⟩
          simp only [hasComplete_append, hasComplete_singleton_starting,
            hasComplete_analytical_triple, hasComplete_genSeg _ hseg1,
            hasComplete_genSeg _ hsegA, hasComplete_genSeg _ hsegD,
            hasComplete_genSeg _ hsegS, hasComplete_intuitiveLoop,
            hasComplete_dialogueLoop, Bool.or_false, Bool.false_or]
        next syn gops4 k4 heq4 =>
          exact Or.inl rfl

theorem IntuitiveMind_burst (q : String) (s : SomaticState) (gen : GenOracle) (k : Nat) :
    (IntuitiveMind.think q s gen k).1 = if s.stress_level < 0.5 then 3 else 2 := rfl

theorem init_stress : ({} : SomaticState).stress_level = 1/8 := by
  norm_num [SomaticState.stress_level]

theorem think_burst (query : String) (gen : GenOracle) :
    (MindGym.think query gen).burst_size = 3 := by
  have hb : ({} : SomaticState).stress_level < 0.5 := by
    rw [init_stress]; norm_num
  unfold MindGym.think
  dsimp only
  split
  next b ts gops1 k1 e heq =>
    have h1 : (IntuitiveMind.think query {} gen 0).1 = b := by rw [heq]
    rw [IntuitiveMind_burst, if_pos hb] at h1
    exact h1.symm
  next b ts gops1 k1 heq =>
    have h1 : (IntuitiveMind.think query {} gen 0).1 = b := by rw [heq]
    rw [IntuitiveMind_burst, if_pos hb] at h1
    split
    next x gops2 k2 e heq2 => exact h1.symm
    next x gops2 k2 heq2 =>
      split
      next d gops3 k3 e heq3 => exact h1.symm
      next d gops3 k3 heq3 =>
        split
        next syn gops4 k4 e heq4 => exact h1.symm
        next syn gops4 k4 heq4 => exact h1.symm

theorem think_phase3_spec (query : String) (gen : GenOracle) (a : String)
    (tsv : List String) :
    (MindGym.think query gen).analytical_thought = some a →
      (MindGym.think query gen).intuitive_thoughts = tsv →
      tsv.length = 3 ∧
      (MindGym.think query gen).dialogue_rounds = some
        (if ((tsv ++ [a]).foldl SomaticState.update_from_thought {}).stress_level > 0.7
          then 1 else 2) := by
  have hb : ({} : SomaticState).stress_level < 0.5 := by
    rw [init_stress]; norm_num
  unfold MindGym.think
  dsimp only
  split
  next b ts gops1 k1 e heq =>
    intro h
    simp at h
  next b ts gops1 k1 heq =>
    have h1 : (IntuitiveMind.think query {} gen 0).1 = b := by rw [heq]
    rw [IntuitiveMind_burst, if_pos hb] at h1
    have hlen : ts.length = 3 := by
      have h2 := IntuitiveMind_len query {} gen 0 (by rw [heq])
      rw [heq] at h2
      dsimp only at h2
      exact h2.trans h1.symm
    split
    next x gops2 k2 e heq2 =>
      intro h
      simp at h
    next x gops2 k2 heq2 =>
      split
      next d gops3 k3 e heq3 =>
        intro h hts
        obtain rfl : x = a := by simpa using h
        obtain rfl : ts = tsv := hts
        refine ⟨hlen, ?_⟩
        simp [intuitiveLoop_state, List.foldl_append]
      next d gops3 k3 heq3 =>
        split
        next syn gops4 k4 e heq4 =>
          intro h hts
          obtain rfl : x = a := by simpa using h
          obtain rfl : ts = tsv := hts
          refine ⟨hlen, ?_⟩
          simp [intuitiveLoop_state, List.foldl_append]
        next syn gops4 k4 heq4 =>
          intro h hts
          obtain rfl : x = a := by simpa using h
          obtain rfl : ts = tsv := hts
          refine ⟨hlen, ?_⟩
          simp [intuitiveLoop_state, List.foldl_append]

/-- A text with no heuristic markers only increments tension. -/
theorem update_plain (s : SomaticState) (t : String) (h1 : hasConfusion t = false)
    (h2 : hasClarity t = false) (h3 : hasBang t = false) :
    s.update_from_thought t = { s with tension := min 1 (s.tension + 0.02) } := by
  unfold SomaticState.update_from_thought
  simp [h1, h2, h3]

theorem arousal_nonneg_step (s : SomaticState) (t : String) (h : 0 ≤ s.arousal) :
    0 ≤ (s.update_from_thought t).arousal := by
  rw [update_arousal]
  by_cases h1 : hasConfusion t = true <;> by_cases h3 : hasBang t = true <;>
    simp [h1, h3, min_def] <;> (try split_ifs) <;> linarith

theorem arousal_le_step (s : SomaticState) (t : String) :
    (s.update_from_thought t).arousal ≤ s.arousal + 0.15 := by
  rw [update_arousal]
  by_cases h1 : hasConfusion t = true <;> by_cases h3 : hasBang t = true <;>
    simp [h1, h3, min_def] <;> (try split_ifs) <;> linarith

theorem arousal_max_step (s : SomaticState) (t : String) :
    (s.update_from_thought t).arousal ≤ max 1 (s.arousal + 0.1) := by
  rw [update_arousal]
  by_cases h1 : hasConfusion t = true <;> by_cases h3 : hasBang t = true <;>
    simp [h1, h3, min_def, max_def] <;> (try split_ifs) <;> linarith

theorem coherence_nonneg_step (s : SomaticState) (t : String) (h : 0 ≤ s.coherence) :
    0 ≤ (s.update_from_thought t).coherence := by
  rw [update_coherence]
  by_cases h1 : hasConfusion t = true <;> by_cases h2 : hasClarity t = true <;>
    simp [h1, h2, min_def] <;> (try split_ifs) <;> linarith

theorem coherence_ub_step (s : SomaticState) (t : String) (h0 : 0 ≤ s.coherence)
    (h : s.coherence ≤ 1) : (s.update_from_thought t).coherence ≤ 1 := by
  rw [update_coherence]
  by_cases h1 : hasConfusion t = true <;> by_cases h2 : hasClarity t = true <;>
    simp [h1, h2, min_def] <;> (try split_ifs) <;> linarith

theorem coherence_lb_step (s : SomaticState) (t : String) (h0 : 0 ≤ s.coherence)
    (h : s.coherence ≤ 1) :
    0.9 * s.coherence ≤ (s.update_from_thought t).coherence := by
  rw [update_coherence]
  by_cases h1 : hasConfusion t = true <;> by_cases h2 : hasClarity t = true <;>
    simp [h1, h2, min_def] <;> (try split_ifs) <;> linarith

/-- After exactly four governor updates from the reset state, whatever the four
texts: coherence is at least `0.5 * 0.9 ^ 4`, arousal is at most `1.05`
(despite the unclamped confusion increment), and the stress level is at most
`0.7`, so the one-round dialogue branch cannot fire. -/
theorem fold4_bounds (l : List String) (hlen : l.length = 4) :
    0.5 * 0.9 ^ 4 ≤ (l.foldl SomaticState.update_from_thought {}).coherence ∧
    (l.foldl SomaticState.update_from_thought {}).arousal ≤ 1.05 ∧
    (l.foldl SomaticState.update_from_thought {}).stress_level ≤ 0.7 := by
  rcases l with _ | ⟨t1, l⟩; · simp at hlen
  rcases l with _ | ⟨t2, l⟩; · simp at hlen
  rcases l with _ | ⟨t3, l⟩; · simp at hlen
  rcases l with _ | ⟨t4, l⟩; · simp at hlen
  rcases l with _ | ⟨t5, l⟩
  swap; · simp at hlen
  simp only [List.foldl_cons, List.foldl_nil]
  set s0 : SomaticState := {} with hs0
  set s1 := s0.update_from_thought t1 with hs1
  set s2 := s1.update_from_thought t2 with hs2
  set s3 := s2.update_from_thought t3 with hs3
  set s4 := s3.update_from_thought t4 with hs4
  have ha0 : s0.arousal = 0.5 := rfl
  have hc0 : s0.coherence = 0.5 := rfl
  have hv0 : s0.valence = 0.0 := rfl
  have hv4 : s4.valence = 0.0 := by
    rw [hs4, update_valence, hs3, update_valence, hs2, update_valence, hs1,
      update_valence, hv0]
  have ha1 : s1.arousal ≤ 0.65 := by
    have := arousal_le_step s0 t1; rw [ha0] at this; linarith [this]
  have ha2 : s2.arousal ≤ 0.8 := by
    have := arousal_le_step s1 t2; linarith [this, ha1]
  have ha3 : s3.arousal ≤ 0.95 := by
    have := arousal_le_step s2 t3; linarith [this, ha2]
  have ha4 : s4.arousal ≤ 1.05 := by
    have hstep := arousal_max_step s3 t4
    have hmax : max 1 (s3.arousal + 0.1) ≤ 1.05 := by
      apply max_le (by norm_num)
      linarith [ha3]
    linarith [hstep, hmax]
  have ha0n : (0 : ℚ) ≤ s0.arousal := by rw [ha0]; norm_num
  have ha1n : (0 : ℚ) ≤ s1.arousal := arousal_nonneg_step s0 t1 ha0n
  have ha2n : (0 : ℚ) ≤ s2.arousal := arousal_nonneg_step s1 t2 ha1n
  have ha3n : (0 : ℚ) ≤ s3.arousal := arousal_nonneg_step s2 t3 ha2n
  have ha4n : (0 : ℚ) ≤ s4.arousal := arousal_nonneg_step s3 t4 ha3n
  have hc0n : (0 : ℚ) ≤ s0.coherence := by rw [hc0]; norm_num
  have hc0u : s0.coherence ≤ 1 := by rw [hc0]; norm_num
  have hc1n : (0 : ℚ) ≤ s1.coherence := coherence_nonneg_step s0 t1 hc0n
  have hc1u : s1.coherence ≤ 1 := coherence_ub_step s0 t1 hc0n hc0u
  have hc2n : (0 : ℚ) ≤ s2.coherence := coherence_nonneg_step s1 t2 hc1n
  have hc2u : s2.coherence ≤ 1 := coherence_ub_step s1 t2 hc1n hc1u
  have hc3n : (0 : ℚ) ≤ s3.coherence := coherence_nonneg_step s2 t3 hc2n
  have hc3u : s3.coherence ≤ 1 := coherence_ub_step s2 t3 hc2n hc2u
  have hc4n : (0 : ℚ) ≤ s4.coherence := coherence_nonneg_step s3 t4 hc3n
  have hc4u : s4.coherence ≤ 1 := coherence_ub_step s3 t4 hc3n hc3u
  have hc1 : 0.45 ≤ s1.coherence := by
    have := coherence_lb_step s0 t1 hc0n hc0u; rw [hc0] at this; linarith [this]
  have hc2 : 0.405 ≤ s2.coherence := by
    have := coherence_lb_step s1 t2 hc1n hc1u; nlinarith [this, hc1]
  have hc3 : 0.3645 ≤ s3.coherence := by
    have := coherence_lb_step s2 t3 hc2n hc2u; nlinarith [this, hc2]
  have hc4 : 0.32805 ≤ s4.coherence := by
    have := coherence_lb_step s3 t4 hc3n hc3u; nlinarith [this, hc3]
  refine ⟨by norm_num; linarith [hc4], ha4, ?_⟩
  unfold SomaticState.stress_level
  rw [hv4]
  have hprod : s4.arousal * (1 - 0.0) / 2 * (1 - s4.coherence) ≤ (1.05 / 2) * 1 := by
    have h1 : s4.arousal * (1 - 0.0) / 2 ≤ 1.05 / 2 := by linarith [ha4]
    have h2 : (1 : ℚ) - s4.coherence ≤ 1 := by linarith [hc4n]
    have h3 : (0 : ℚ) ≤ 1 - s4.coherence := by linarith [hc4u]
    have h4 : (0 : ℚ) ≤ s4.arousal * (1 - 0.0) / 2 := by linarith [ha4n]
    exact mul_le_mul h1 h2 h3 (by norm_num)
  linarith [hprod]

/-- Deterministic stand-in backend: every call returns the marker-free text "A"
(the spec's end-to-end scenario oracle). -/
def standinGen : GenOracle := fun _ => Except.ok "A"

theorem standinGen_app (k : Nat) : standinGen k = Except.ok "A" := rfl

theorem updateA_0 : ({} : SomaticState).update_from_thought "A" =
    (⟨0.5, 0.0, 0.5, 1/50⟩ : SomaticState) := by
  rw [update_plain _ _ (by decide) (by decide) (by decide)]
  norm_num [min_def]

theorem updateA_1 : (⟨0.5, 0.0, 0.5, 1/50⟩ : SomaticState).update_from_thought "A" =
    (⟨0.5, 0.0, 0.5, 2/50⟩ : SomaticState) := by
  rw [update_plain _ _ (by decide) (by decide) (by decide)]
  norm_num [min_def]

theorem updateA_2 : (⟨0.5, 0.0, 0.5, 2/50⟩ : SomaticState).update_from_thought "A" =
    (⟨0.5, 0.0, 0.5, 3/50⟩ : SomaticState) := by
  rw [update_plain _ _ (by decide) (by decide) (by decide)]
  norm_num [min_def]

theorem updateA_3 : (⟨0.5, 0.0, 0.5, 3/50⟩ : SomaticState).update_from_thought "A" =
    (⟨0.5, 0.0, 0.5, 4/50⟩ : SomaticState) := by
  rw [update_plain _ _ (by decide) (by decide) (by decide)]
  norm_num [min_def]

theorem updateA_4 : (⟨0.5, 0.0, 0.5, 4/50⟩ : SomaticState).update_from_thought "A" =
    (⟨0.5, 0.0, 0.5, 5/50⟩ : SomaticState) := by
  rw [update_plain _ _ (by decide) (by decide) (by decide)]
  norm_num [min_def]

theorem updateA_5 : (⟨0.5, 0.0, 0.5, 5/50⟩ : SomaticState).update_from_thought "A" =
    (⟨0.5, 0.0, 0.5, 6/50⟩ : SomaticState) := by
  rw [update_plain _ _ (by decide) (by decide) (by decide)]
  norm_num [min_def]

theorem st6_needs_rest : (⟨0.5, 0.0, 0.5, 6/50⟩ : SomaticState).needs_rest = false := by
  have h1 : ¬((⟨0.5, 0.0, 0.5, 6/50⟩ : SomaticState).stress_level > 0.8) := by
    norm_num [SomaticState.stress_level]
  have h2 : ¬((⟨0.5, 0.0, 0.5, (6 : ℚ)/50⟩ : SomaticState).tension > 0.9) := by
    norm_num
  unfold SomaticState.needs_rest
  rw [decide_eq_false h1, decide_eq_false h2]
  rfl

theorem standin_genLoop :
    genLoop "intuitive" ({} : SomaticState) 0.9 standinGen 0 3 =
      (["A", "A", "A"],
       [Op.genCall 0 "intuitive" {} 0.9 "A", Op.genCall 1 "intuitive" {} 0.9 "A",
        Op.genCall 2 "intuitive" {} 0.9 "A"], 3, none) := rfl

theorem standin_converse :
    converseLoop standinGen (⟨0.5, 0.0, 0.5, 4/50⟩ : SomaticState) (3 + 1) 2 =
      ([("dialogue", "A"), ("dialogue", "A")],
       [Op.genCall 4 "dialogue" ⟨0.5, 0.0, 0.5, 4/50⟩ 0.6 "A",
        Op.genCall 5 "dialogue" ⟨0.5, 0.0, 0.5, 4/50⟩ 0.6 "A"], 6, none) := rfl

theorem standinRun_eq :
    MindGym.think "What is happiness?" standinGen =
      { trace :=
          [Op.emit (Event.starting "intuitive"),
           Op.genCall 0 "intuitive" {} 0.9 "A",
           Op.genCall 1 "intuitive" {} 0.9 "A",
           Op.genCall 2 "intuitive" {} 0.9 "A",
           Op.update "intuitive" "A" ⟨0.5, 0.0, 0.5, 1/50⟩,
           Op.emit (Event.artifact "intuitive" none "A"
             [("stress", (⟨0.5, 0.0, 0.5, 1/50⟩ : SomaticState).stress_level),
              ("coherence", 0.5)]),
           Op.update "intuitive" "A" ⟨0.5, 0.0, 0.5, 2/50⟩,
           Op.emit (Event.artifact "intuitive" none "A"
             [("stress", (⟨0.5, 0.0, 0.5, 2/50⟩ : SomaticState).stress_level),
              ("coherence", 0.5)]),
           Op.update "intuitive" "A" ⟨0.5, 0.0, 0.5, 3/50⟩,
           Op.emit (Event.artifact "intuitive" none "A"
             [("stress", (⟨0.5, 0.0, 0.5, 3/50⟩ : SomaticState).stress_level),
              ("coherence", 0.5)]),
           Op.emit (Event.starting "analytical"),
           Op.genCall 3 "analytical" ⟨0.5, 0.0, 0.5, 3/50⟩ 0.5 "A",
           Op.update "analytical" "A" ⟨0.5, 0.0, 0.5, 4/50⟩,
           Op.emit (Event.artifact "analytical" none "A"
             [("stress", (⟨0.5, 0.0, 0.5, 4/50⟩ : SomaticState).stress_level),
              ("tension", 4/50)]),
           Op.emit (Event.starting "dialogue"),
           Op.genCall 4 "dialogue" ⟨0.5, 0.0, 0.5, 4/50⟩ 0.6 "A",
           Op.genCall 5 "dialogue" ⟨0.5, 0.0, 0.5, 4/50⟩ 0.6 "A",
           Op.update "dialogue" "A" ⟨0.5, 0.0, 0.5, 5/50⟩,
           Op.emit (Event.artifact "dialogue" (some "dialogue") "A"
             [("coherence", 0.5)]),
           Op.update "dialogue" "A" ⟨0.5, 0.0, 0.5, 6/50⟩,
           Op.emit (Event.artifact "dialogue" (some "dialogue") "A"
             [("coherence", 0.5)]),
           Op.emit (Event.starting "synthesis"),
           Op.genCall 6 "synthesis" ⟨0.5, 0.0, 0.5, 6/50⟩ 0.4 "A",
           Op.emit (Event.complete "A"
             (⟨0.5, 0.0, 0.5, 6/50⟩ : SomaticState).stress_level 0.5 false)],
        err := none, burst_size := 3, intuitive_thoughts := ["A", "A", "A"],
        analytical_thought := some "A", dialogue_rounds := some 2,
        dialogue := [("dialogue", "A"), ("dialogue", "A")],
        synthesis := some "A" } := by
  have hblt : ({} : SomaticState).stress_level < 0.5 := by
    rw [init_stress]; norm_num
  have htemp : ¬((⟨0.5, 0.0, 0.5, 3/50⟩ : SomaticState).stress_level > 0.7) := by
    norm_num [SomaticState.stress_level]
  have hrnd : ¬((⟨0.5, 0.0, 0.5, 4/50⟩ : SomaticState).stress_level > 0.7) := by
    norm_num [SomaticState.stress_level]
  unfold MindGym.think IntuitiveMind.think AnalyticalMind.think DialogueNode.converse
    synthesize
  simp only [if_pos hblt, standin_genLoop, standinGen_app, intuitiveLoop,
    updateA_0, updateA_1, updateA_2, updateA_3, updateA_4, updateA_5,
    if_neg htemp, if_neg hrnd, standin_converse, dialogueLoop, st6_needs_rest,
    List.append_assoc, List.singleton_append, List.cons_append, List.nil_append]

/-- A string has no leading or trailing (Python) whitespace. -/
def noEdgeSpace (s : String) : Bool :=
  (match s.data.head? with
    | none => true
    | some c => !(pyIsSpace c)) &&
  (match s.data.getLast? with
    | none => true
    | some c => !(pyIsSpace c))

theorem head?_dropWhile_false (p : Char → Bool) :
    ∀ (l : List Char) (c : Char), (l.dropWhile p).head? = some c → p c = false := by
  intro l
  induction l with
  | nil => intro c h; simp at h
  | cons a t ih =>
    intro c h
    rw [List.dropWhile_cons] at h
    by_cases hp : p a
    · rw [if_pos hp] at h
      exact ih c h
    · rw [if_neg hp] at h
      simp only [List.head?_cons, Option.some.injEq] at h
      rw [← h]
      cases hpa : p a
      · rfl
      · exact absurd hpa hp

theorem getLast?_dropWhile (p : Char → Bool) :
    ∀ (l : List Char), (l.dropWhile p) ≠ [] →
      (l.dropWhile p).getLast? = l.getLast? := by
  intro l
  induction l with
  | nil => intro h; simp at h
  | cons a t ih =>
    intro h
    rw [List.dropWhile_cons] at h ⊢
    by_cases hp : p a
    · rw [if_pos hp] at h ⊢
      have ht : t ≠ [] := by
        rintro rfl
        simp at h
      obtain ⟨b, t2, rfl⟩ := List.exists_cons_of_ne_nil ht
      rw [ih h, List.getLast?_cons_cons]
    · rw [if_neg hp]

theorem noEdgeSpace_pyStrip (s : String) : noEdgeSpace (pyStrip s) = true := by
  unfold pyStrip stripList noEdgeSpace
  rw [show (String.mk (((s.data.dropWhile pyIsSpace).reverse.dropWhile
    pyIsSpace).reverse)).data = ((s.data.dropWhile pyIsSpace).reverse.dropWhile
    pyIsSpace).reverse from rfl]
  rw [List.head?_reverse, List.getLast?_reverse]
  have h2 : (match ((s.data.dropWhile pyIsSpace).reverse.dropWhile pyIsSpace).head? with
      | none => true
      | some c => !(pyIsSpace c)) = true := by
    rcases hh : ((s.data.dropWhile pyIsSpace).reverse.dropWhile pyIsSpace).head? with
      _ | c
    · rfl
    · have := head?_dropWhile_false pyIsSpace (s.data.dropWhile pyIsSpace).reverse c hh
      simp [this]
  have h1 : (match ((s.data.dropWhile pyIsSpace).reverse.dropWhile pyIsSpace).getLast? with
      | none => true
      | some c => !(pyIsSpace c)) = true := by
    rcases hg : ((s.data.dropWhile pyIsSpace).reverse.dropWhile pyIsSpace).getLast? with
      _ | c
    · rfl
    · have hne : (s.data.dropWhile pyIsSpace).reverse.dropWhile pyIsSpace ≠ [] := by
        rintro hemp
        rw [hemp] at hg
        simp at hg
      rw [getLast?_dropWhile pyIsSpace _ hne, List.getLast?_reverse] at hg
      have := head?_dropWhile_false pyIsSpace s.data c hg
      simp [this]
    
  rw [h1, h2]
  rfl

/-- The claim as stated: every artifact's update precedes its event, and a
strict happens-before holds between consecutive phase-1–3 artifact
generations (each one's update precedes the next one's generation call). -/
def claimC3check (tr : List Op) : Bool :=
  pairedOk tr && hbWalk none tr

/-- A backend that succeeds for the three intuitive fragments and fails at the
analytical call (call index 3). -/
def genAnalyticalFails : GenOracle := fun k =>
  if k < 3 then Except.ok "A" else Except.error GenError.backendFailure

theorem fail_genLoop :
    genLoop "intuitive" ({} : SomaticState) 0.9 genAnalyticalFails 0 3 =
      (["A", "A", "A"],
       [Op.genCall 0 "intuitive" {} 0.9 "A", Op.genCall 1 "intuitive" {} 0.9 "A",
        Op.genCall 2 "intuitive" {} 0.9 "A"], 3, none) := rfl

theorem fail_app3 : genAnalyticalFails 3 = Except.error GenError.backendFailure := rfl

theorem failRun_err :
    (MindGym.think "What is happiness?" genAnalyticalFails).err =
      some GenError.backendFailure := by
  have hblt : ({} : SomaticState).stress_level < 0.5 := by
    rw [init_stress]; norm_num
  unfold MindGym.think IntuitiveMind.think AnalyticalMind.think
  simp only [if_pos hblt, fail_genLoop, fail_app3]

theorem update_confused (s : SomaticState) :
    s.update_from_thought "confused" =
      ⟨s.arousal + 0.1, s.valence, s.coherence * 0.9, min 1 (s.tension + 0.02)⟩ := by
  unfold SomaticState.update_from_thought
  simp [show hasConfusion "confused" = true from by decide,
    show hasClarity "confused" = false from by decide,
    show hasBang "confused" = false from by decide]

/-- C1: the claim says every field stays within its documented bound after each
`update_from_text` call from the default state (arousal in [0,1]).  The code
violates it: the confusion branch adds 0.1 to `arousal` without the `min(1.0, ...)`
clamp used everywhere else, so six successive updates on the text `"confused"`
drive `arousal` from its default 0.5 to 1.1, strictly above the documented
upper bound 1. -/
theorem C1_arousal_escapes_bound :
    ((List.replicate 6 "confused").foldl SomaticState.update_from_thought {}).arousal
      = 1.1 ∧
    ¬ ((List.replicate 6 "confused").foldl SomaticState.update_from_thought
        {}).arousal ≤ 1 := by
  have hrep : List.replicate 6 "confused" =
      ["confused", "confused", "confused", "confused", "confused", "confused"] := rfl
  rw [hrep]
  simp only [List.foldl_cons, List.foldl_nil, update_confused]
  norm_num

/-- C2: a `GenerationError` in any phase aborts the run: the event trace
contains no terminal `complete` event (hence no synthesis event either), the
run's synthesis is absent, and the recorded error is the distinguishable
terminal failure signal that replaces `complete`. -/
theorem C2_generation_error_aborts_run (query : String) (gen : GenOracle)
    (e : GenError) (h : (MindGym.think query gen).err = some e) :
    hasCompleteEvent (MindGym.think query gen).trace = false ∧
    (MindGym.think query gen).synthesis = none := by
  rcases think_abort query gen with hnone | hr
  · rw [h] at hnone
    exact absurd hnone (by simp)
  · exact hr

theorem C2_generation_error_aborts_run_witness :
    (MindGym.think "What is happiness?" genAnalyticalFails).err =
      some GenError.backendFailure ∧
    hasCompleteEvent (MindGym.think "What is happiness?" genAnalyticalFails).trace
      = false ∧
    (MindGym.think "What is happiness?" genAnalyticalFails).synthesis = none :=
  ⟨failRun_err,
   (C2_generation_error_aborts_run _ _ _ failRun_err).1,
   (C2_generation_error_aborts_run _ _ _ failRun_err).2⟩

/-- C3 (counterexample): the claim as stated — every artifact's update is
applied before its event is emitted AND the update is visible before the next
artifact's generation, including between consecutive intuitive fragments — is
false on the code: in the run on the deterministic stand-in backend, all three
intuitive fragments are generated before any governor update, so the strict
happens-before between consecutive fragments fails. -/
theorem C3_happens_before_as_stated_fails :
    claimC3check (MindGym.think "What is happiness?" standinGen).trace = false := by
  have hw : hbWalk none (MindGym.think "What is happiness?" standinGen).trace
      = false := by
    rw [standinRun_eq]
    simp [hbWalk, phaseRank]
  unfold claimC3check
  rw [hw, Bool.and_false]

/-- C3 (amended): in every run, each artifact's `update_from_thought` is applied
to the current governor state immediately before that artifact's event is
emitted, and the event's somatic snapshot reflects the post-update state
(`pairedOk` and `stateDiscipline`); every generation call sees the governor
state current at the moment of the call; and all of a phase's updates precede
every later phase's generation calls (`crossPhaseOk`) — but within a phase the
artifacts are all generated before the phase's updates, so the claimed strict
happens-before holds only across phase boundaries, not between consecutive
intra-phase artifacts. -/
theorem C3_update_before_emit_and_cross_phase (query : String) (gen : GenOracle) :
    pairedOk (MindGym.think query gen).trace = true ∧
    stateDiscipline {} (MindGym.think query gen).trace = true ∧
    crossPhaseOk 0 (MindGym.think query gen).trace = true :=
  ⟨think_pairedOk query gen, think_stateDiscipline query gen,
   think_crossPhaseOk query gen⟩

/-- C4: every `update_from_thought` call sets `tension` to exactly
`min 1 (tension + 0.02)` regardless of the text, and within a run (where
`tension ≤ 1`) tension is monotonically non-decreasing and stays at most 1. -/
theorem C4_tension_increment_monotone (s : SomaticState) (t : String) :
    (s.update_from_thought t).tension = min 1 (s.tension + 0.02) ∧
    (s.tension ≤ 1 →
      s.tension ≤ (s.update_from_thought t).tension ∧
      (s.update_from_thought t).tension ≤ 1) := by
  refine ⟨update_tension s t, fun h => ⟨?_, ?_⟩⟩
  · rw [update_tension]
    exact le_min h (by linarith)
  · rw [update_tension]
    exact min_le_left _ _

theorem C4_tension_increment_monotone_witness :
    ({} : SomaticState).tension ≤ 1 ∧
    ({} : SomaticState).tension ≤ (({} : SomaticState).update_from_thought "A").tension ∧
    (({} : SomaticState).update_from_thought "A").tension ≤ 1 := by
  have h : ({} : SomaticState).tension ≤ 1 := by norm_num
  exact ⟨h, ((C4_tension_increment_monotone {} "A").2 h).1,
    ((C4_tension_increment_monotone {} "A").2 h).2⟩

/-- C5: `stress_level` is a pure function of the four fields, equal to
`arousal * (1 - valence) / 2 * (1 - coherence)`; evaluating it twice on the
same state yields identical results. -/
theorem C5_stress_level_pure (s : SomaticState) :
    s.stress_level = s.arousal * (1 - s.valence) / 2 * (1 - s.coherence) ∧
    s.stress_level = s.stress_level :=
  ⟨rfl, rfl⟩

/-- C6: `IntuitiveMind.think` sizes the burst once at phase entry from the
entry state: exactly 3 fragments when `stress_level() < 0.5`, exactly 2
otherwise; when no generation call fails, the returned fragment list has
exactly the burst size many elements. -/
theorem C6_burst_size (q : String) (s : SomaticState) (gen : GenOracle) (k : Nat) :
    (s.stress_level < 0.5 → (IntuitiveMind.think q s gen k).1 = 3) ∧
    (¬ s.stress_level < 0.5 → (IntuitiveMind.think q s gen k).1 = 2) ∧
    ((IntuitiveMind.think q s gen k).2.2.2.2 = none →
      (IntuitiveMind.think q s gen k).2.1.length = (IntuitiveMind.think q s gen k).1) := by
  refine ⟨fun h => ?_, fun h => ?_, IntuitiveMind_len q s gen k⟩
  · rw [IntuitiveMind_burst, if_pos h]
  · rw [IntuitiveMind_burst, if_neg h]

theorem C6_burst_size_witness :
    (IntuitiveMind.think "What is happiness?" {} standinGen 0).1 = 3 ∧
    (IntuitiveMind.think "What is happiness?" {} standinGen 0).2.1.length = 3 ∧
    (IntuitiveMind.think "What is happiness?" ⟨1, -1, 0, 0⟩ standinGen 0).1 = 2 := by
  have h1 : ({} : SomaticState).stress_level < 0.5 := by
    rw [init_stress]; norm_num
  have h2 : ¬ (⟨1, -1, 0, 0⟩ : SomaticState).stress_level < 0.5 := by
    norm_num [SomaticState.stress_level]
  have hnone : (IntuitiveMind.think "What is happiness?" {} standinGen 0).2.2.2.2
      = none := by
    simp only [IntuitiveMind.think, if_pos h1, standin_genLoop]
  refine ⟨(C6_burst_size _ _ _ _).1 h1, ?_, (C6_burst_size _ _ _ _).2.1 h2⟩
  rw [(C6_burst_size _ _ _ _).2.2 hnone, (C6_burst_size _ _ _ _).1 h1]

/-- C7: the orchestrator chooses the dialogue round count at phase-3 entry as
exactly 1 when the stress level of the state at that point (the fold of the
governor updates over the three fragments and the analytical text) exceeds
0.7, and exactly 2 otherwise; and the count stays fixed for the phase:
`DialogueNode.converse` performs exactly that many generation rounds when no
call fails. -/
theorem C7_dialogue_rounds_choice (query : String) (gen : GenOracle) :
    (∀ (a : String) (tsv : List String),
      (MindGym.think query gen).analytical_thought = some a →
      (MindGym.think query gen).intuitive_thoughts = tsv →
      (MindGym.think query gen).dialogue_rounds = some
        (if ((tsv ++ [a]).foldl SomaticState.update_from_thought {}).stress_level > 0.7
          then 1 else 2)) ∧
    (∀ (its : List String) (ana q : String) (r k : Nat) (stamp : SomaticState),
      (DialogueNode.converse its ana q r gen k stamp).2.2.2 = none →
      (DialogueNode.converse its ana q r gen k stamp).2.1.length = r) := by
  constructor
  · intro a tsv hA hT
    exact (think_phase3_spec query gen a tsv hA hT).2
  · intro its ana q r k stamp h
    exact converseLoop_count gen stamp r k h

theorem C7_dialogue_rounds_choice_witness :
    (MindGym.think "What is happiness?" standinGen).dialogue_rounds = some
      (if (((["A", "A", "A"] : List String) ++ ["A"]).foldl
          SomaticState.update_from_thought {}).stress_level > 0.7 then 1 else 2) ∧
    (DialogueNode.converse [] "x" "q" 2 standinGen 0 {}).2.1.length = 2 := by
  have hA : (MindGym.think "What is happiness?" standinGen).analytical_thought
      = some "A" := by rw [standinRun_eq]
  have hT : (MindGym.think "What is happiness?" standinGen).intuitive_thoughts
      = ["A", "A", "A"] := by rw [standinRun_eq]
  exact ⟨(C7_dialogue_rounds_choice "What is happiness?" standinGen).1 "A"
      ["A", "A", "A"] hA hT,
    (C7_dialogue_rounds_choice "What is happiness?" standinGen).2 [] "x" "q" 2 0 {} rfl⟩

/-- C8: per dialogue round, a generated text containing both speaker tags is
split into exactly two turns — intuitive first, analytical second, with the tag
labels trimmed away (no leading or trailing whitespace remains); a text lacking
both tags yields exactly one turn under the untagged speaker marker
`"dialogue"`; and the dialogue phase never fails on parsing — `converse`
succeeds for any generated text. -/
theorem C8_dialogue_parse_policy (text : String) :
    (pyIn "INTUITIVE:" text = true → pyIn "ANALYTICAL:" text = true →
      ∃ c1 c2, parseDialogueText text = [("intuitive", c1), ("analytical", c2)] ∧
        noEdgeSpace c1 = true ∧ noEdgeSpace c2 = true) ∧
    (pyIn "INTUITIVE:" text = false → pyIn "ANALYTICAL:" text = false →
      parseDialogueText text = [("dialogue", text)]) ∧
    (∀ (its : List String) (ana q : String) (r k : Nat) (stamp : SomaticState),
      (DialogueNode.converse its ana q r (fun _ => Except.ok text) k stamp).2.2.2
        = none) := by
  refine ⟨fun h1 h2 => ?_, fun h1 h2 => ?_, fun its ana q r k stamp => ?_⟩
  · unfold parseDialogueText
    rw [if_pos (by simp [h1, h2])]
    refine ⟨_, _, rfl, noEdgeSpace_pyStrip _, ?_⟩
    split
    · exact noEdgeSpace_pyStrip _
    · rfl
  · unfold parseDialogueText
    rw [if_neg (by simp [h1])]
  · unfold DialogueNode.converse
    induction r generalizing k with
    | zero => rfl
    | succ m ih =>
      simp only [converseLoop]
      exact ih (k + 1)

theorem C8_dialogue_parse_policy_witness :
    (∃ c1 c2, parseDialogueText "INTUITIVE: hello ANALYTICAL: world" =
      [("intuitive", c1), ("analytical", c2)] ∧
      noEdgeSpace c1 = true ∧ noEdgeSpace c2 = true) ∧
    parseDialogueText "just a plain thought" =
      [("dialogue", "just a plain thought")] :=
  ⟨(C8_dialogue_parse_policy _).1 (by decide) (by decide),
   (C8_dialogue_parse_policy _).2.1 (by decide) (by decide)⟩

/-- C9: `update_from_thought` never modifies `valence`; the per-query reset
leaves it at the default 0; hence every governor state recorded anywhere in any
run's trace (generation-call stamps and post-update states alike) has
`valence = 0`. -/
theorem C9_valence_never_modified :
    (∀ (s : SomaticState) (t : String),
      (s.update_from_thought t).valence = s.valence) ∧
    ({} : SomaticState).valence = 0 ∧
    ∀ (query : String) (gen : GenOracle),
      allValenceZero (MindGym.think query gen).trace = true := by
  refine ⟨update_valence, by norm_num, fun query gen => ?_⟩
  exact stateDiscipline_allValenceZero _ {} (by norm_num)
    (think_stateDiscipline query gen)

/-- C10: the low-capacity branches are unreachable in every run of
`MindGym.think`: the freshly reset state has stress level exactly 1/8 < 0.5,
so the burst size is always 3; and at phase-3 entry — after the four updates
over the three fragments and the analytical text, with valence fixed at 0 —
coherence is at least `0.5 * 0.9 ^ 4`, arousal is at most 1.05, the stress
level is at most 0.7, and the dialogue round count is always 2. -/
theorem C10_low_capacity_branches_unreachable (query : String) (gen : GenOracle) :
    ({} : SomaticState).stress_level = 1/8 ∧
    ({} : SomaticState).stress_level < 0.5 ∧
    (MindGym.think query gen).burst_size = 3 ∧
    ∀ (a : String) (tsv : List String),
      (MindGym.think query gen).analytical_thought = some a →
      (MindGym.think query gen).intuitive_thoughts = tsv →
      0.5 * 0.9 ^ 4 ≤
        ((tsv ++ [a]).foldl SomaticState.update_from_thought {}).coherence ∧
      ((tsv ++ [a]).foldl SomaticState.update_from_thought {}).arousal ≤ 1.05 ∧
      ((tsv ++ [a]).foldl SomaticState.update_from_thought {}).stress_level ≤ 0.7 ∧
      (MindGym.think query gen).dialogue_rounds = some 2 := by
  refine ⟨init_stress, by rw [init_stress]; norm_num, think_burst query gen, ?_⟩
  intro a tsv hA hT
  obtain ⟨hlen, hrounds⟩ := think_phase3_spec query gen a tsv hA hT
  have hlen4 : (tsv ++ [a]).length = 4 := by
    rw [List.length_append, hlen]
    rfl
  obtain ⟨hc, ha, hs⟩ := fold4_bounds _ hlen4
  refine ⟨hc, ha, hs, ?_⟩
  rw [hrounds, if_neg (not_lt.mpr hs)]

theorem C10_low_capacity_branches_unreachable_witness :
    (MindGym.think "What is happiness?" standinGen).analytical_thought = some "A" ∧
    (MindGym.think "What is happiness?" standinGen).dialogue_rounds = some 2 := by
  have hA : (MindGym.think "What is happiness?" standinGen).analytical_thought
      = some "A" := by rw [standinRun_eq]
  have hT : (MindGym.think "What is happiness?" standinGen).intuitive_thoughts
      = ["A", "A", "A"] := by rw [standinRun_eq]
  exact ⟨hA,
    ((C10_low_capacity_branches_unreachable "What is happiness?" standinGen).2.2.2
      "A" ["A", "A", "A"] hA hT).2.2.2⟩
